import Mathlib

/-!
Verification of the jarvis-backend command-resolution pipeline.

The definitions below are a shallow embedding of the Python sources of the
repository (app/core/security.py, app/services/tool_registry.py,
app/logic/device_classifier.py, app/services/semantic_router.py,
app/services/discovery.py, app/logic/context.py, app/logic/processor.py).
Python dictionaries are modelled as association lists in insertion order,
Python values reachable by the pipeline as the inductive `Value`, exceptions
as `Except`, and the two network collaborators (control-plane client and
model client) as oracle functions supplied per request.
-/

namespace Jarvis

/-! ## Python string primitives (modelled character by character) -/

/-- Python whitespace for str.strip and the regex class \s. -/
def isPySpace (c : Char) : Bool :=
  c = ' ' || c = '\t' || c = '\n' || c = '\r' || c = '\x0b' || c = '\x0c'

/-- Lower-casing as str.lower performs it on the character sets the
repository handles (ASCII plus the German letters appearing in the code). -/
def pyLowerChar (c : Char) : Char :=
  if c = 'Ä' then 'ä'
  else if c = 'Ö' then 'ö'
  else if c = 'Ü' then 'ü'
  else c.toLower

def pyLower (s : String) : String :=
  ⟨s.data.map pyLowerChar⟩

/-- str.strip() — drop leading and trailing whitespace. -/
def pyStrip (s : String) : String :=
  ⟨((s.data.dropWhile isPySpace).reverse.dropWhile isPySpace).reverse⟩

/-- str.replace(old-char, " ") for a single character. -/
def pyReplaceToSpace (c : Char) (s : String) : String :=
  ⟨s.data.map (fun ch => if ch = c then ' ' else ch)⟩

/-- Does the list start with the given list? (used for str.startswith). -/
def isStartOf : List Char → List Char → Bool
  | [], _ => true
  | _ :: _, [] => false
  | a :: as, b :: bs => a = b && isStartOf as bs

/-- str.startswith. -/
def strStarts (s pre : String) : Bool :=
  isStartOf pre.data s.data

/-- Substring containment, Python `needle in hay`. -/
def isSubstrList (needle : List Char) : List Char → Bool
  | [] => isStartOf needle []
  | c :: rest => isStartOf needle (c :: rest) || isSubstrList needle rest

def strContains (hay needle : String) : Bool :=
  isSubstrList needle.data hay.data

/-- Substring before the first "." — entity_id.split(".", maxsplit=1)[0]. -/
def splitDot (s : String) : String :=
  ⟨s.data.takeWhile (fun c => c ≠ '.')⟩

def lookupS : List (String × String) → String → Option String
  | [], _ => Option.none
  | (k, v) :: t, key => if k = key then some v else lookupS t key

/-! ## Python values -/

/-- The Python values the pipeline can see: the sanitizer whitelist types
(str, int, float, bool, list, dict) plus `none` standing for None and for
every other unsupported object. -/
inductive Value where
  | str (s : String)
  | int (n : Int)
  | float (q : Rat)
  | bool (b : Bool)
  | list (xs : List Value)
  | dict (kvs : List (String × Value))
  | none

/-- dict.get on an association list (first binding wins; Python dicts hold
each key once). -/
def lookupV : List (String × Value) → String → Option Value
  | [], _ => Option.none
  | (k, v) :: t, key => if k = key then some v else lookupV t key

/-- Python truthiness for the modelled values. -/
def pyTruthy : Value → Bool
  | .str s => !(s == "")
  | .int n => !(n == 0)
  | .float q => !(q == 0)
  | .bool b => b
  | .list xs => !xs.isEmpty
  | .dict kvs => !kvs.isEmpty
  | .none => false

mutual
/-- Python repr, as far as the prompts need it (strings are not escaped). -/
def pyReprV : Value → String
  | .str s => "\x27" ++ s ++ "\x27"
  | .int n => toString n
  | .float q => toString q
  | .bool b => if b then "True" else "False"
  | .list xs => "[" ++ pyReprL xs ++ "]"
  | .dict kvs => "\x7b" ++ pyReprD kvs ++ "\x7d"
  | .none => "None"

def pyReprL : List Value → String
  | [] => ""
  | [v] => pyReprV v
  | v :: t => pyReprV v ++ ", " ++ pyReprL t

def pyReprD : List (String × Value) → String
  | [] => ""
  | [(k, v)] => "\x27" ++ k ++ "\x27: " ++ pyReprV v
  | (k, v) :: t => "\x27" ++ k ++ "\x27: " ++ pyReprV v ++ ", " ++ pyReprD t
end

/-- Python str() of a value: the identity on strings, repr-like rendering
otherwise (only the string case is reachable with the data the control plane
returns). -/
def pyStr : Value → String
  | .str s => s
  | v => pyReprV v

/-! ## app/core/security.py -/

/-- SanitizationError, with one constructor per raise site (plus the
missing-required-argument raise in tool_registry.prepare_service_payload,
which raises the same exception class). -/
inductive SanErr where
  | noAllowedKeys
  | unsafeKey
  | unsupportedType
  | missingRequired (key : String)
deriving DecidableEq

/-- String cleaning of _sanitize_value: value.strip().replace("\n", " ").replace("\r", " "). -/
def sanitizeStr (s : String) : String :=
  pyReplaceToSpace '\r' (pyReplaceToSpace '\n' (pyStrip s))

mutual
/-- _sanitize_value. Lists and dicts keep only their first 20 entries (the
loop breaks at index 20 before looking at the entry); a kept dict key that
starts with "__" raises; any value outside the whitelist types raises. -/
def sanitizeValue : Value → Except SanErr Value
  | .str s => .ok (.str (sanitizeStr s))
  | .int n => .ok (.int n)
  | .float q => .ok (.float q)
  | .bool b => .ok (.bool b)
  | .list xs => (sanitizeList 20 xs).map Value.list
  | .dict kvs => (sanitizeDict 20 kvs).map Value.dict
  | .none => .error .unsupportedType

def sanitizeList : Nat → List Value → Except SanErr (List Value)
  | _, [] => .ok []
  | 0, _ :: _ => .ok []
  | n+1, v :: t => do
    let w ← sanitizeValue v
    let ws ← sanitizeList n t
    .ok (w :: ws)

def sanitizeDict : Nat → List (String × Value) → Except SanErr (List (String × Value))
  | _, [] => .ok []
  | 0, _ :: _ => .ok []
  | n+1, (k, v) :: t =>
    if strStarts k "__" then .error .unsafeKey
    else do
      let w ← sanitizeValue v
      let ws ← sanitizeDict n t
      .ok ((k, w) :: ws)
end

/-- The top-level loop of sanitize_tool_arguments: keys not in the allowed
set, and keys starting with "__", are silently skipped; kept values are
recursively sanitized. -/
def sanitizeTop (allowed : List String) : List (String × Value) → Except SanErr (List (String × Value))
  | [] => .ok []
  | (k, v) :: t =>
    if !allowed.contains k || strStarts k "__" then sanitizeTop allowed t
    else do
      let w ← sanitizeValue v
      let ws ← sanitizeTop allowed t
      .ok ((k, w) :: ws)

/-- sanitize_tool_arguments(args, allowed_keys). `Option.none` models a None
argument map. -/
def sanitize_tool_arguments (args : Option (List (String × Value))) (allowed_keys : List String) :
    Except SanErr (List (String × Value)) :=
  if allowed_keys.isEmpty then .error .noAllowedKeys
  else
    match args with
    | Option.none => .ok []
    | some kvs => sanitizeTop allowed_keys kvs

/-! ## app/services/tool_registry.py -/

structure ToolDefinition where
  name : String
  description : String
  domain : String
  service : String
  allowed_args : List String
  required_args : List String := ["entity_id"]

/-- TOOL_DEFINITIONS, in source order (the Python dict is keyed by name and
preserves insertion order; names are unique). -/
def TOOL_DEFINITIONS : List ToolDefinition := [
  { name := "ha_light_turn_on", description := "Turn on or adjust a light entity.",
    domain := "light", service := "turn_on",
    allowed_args := ["entity_id", "brightness", "brightness_pct", "color_temp"] },
  { name := "ha_light_turn_off", description := "Turn off a light entity.",
    domain := "light", service := "turn_off", allowed_args := ["entity_id"] },
  { name := "ha_switch_turn_on", description := "Turn on a switch or smart plug.",
    domain := "switch", service := "turn_on", allowed_args := ["entity_id"] },
  { name := "ha_switch_turn_off", description := "Turn off a switch or smart plug.",
    domain := "switch", service := "turn_off", allowed_args := ["entity_id"] },
  { name := "ha_media_play", description := "Resume or start media playback.",
    domain := "media_player", service := "media_play", allowed_args := ["entity_id"] },
  { name := "ha_media_pause", description := "Pause or stop media playback.",
    domain := "media_player", service := "media_pause", allowed_args := ["entity_id"] },
  { name := "ha_cover_open", description := "Open a cover, blind, or shade.",
    domain := "cover", service := "open_cover", allowed_args := ["entity_id"] },
  { name := "ha_cover_close", description := "Close a cover, blind, or shade.",
    domain := "cover", service := "close_cover", allowed_args := ["entity_id"] },
  { name := "ha_climate_set_temperature", description := "Set target temperature for a climate device.",
    domain := "climate", service := "set_temperature",
    allowed_args := ["entity_id", "temperature"],
    required_args := ["entity_id", "temperature"] }]

def INTENT_TOOL_MAPPING : List (String × (String × String)) := [
  ("light_control", ("ha_light_turn_on", "ha_light_turn_off")),
  ("switch_control", ("ha_switch_turn_on", "ha_switch_turn_off")),
  ("media_control", ("ha_media_play", "ha_media_pause")),
  ("cover_control", ("ha_cover_open", "ha_cover_close")),
  ("climate_control", ("ha_climate_set_temperature", "ha_climate_set_temperature"))]

def get_tool_definition (name : String) : Option ToolDefinition :=
  TOOL_DEFINITIONS.find? (fun d => d.name = name)

def tool_for_intent (intent : String) (turn_off : Bool) : Option ToolDefinition :=
  match (INTENT_TOOL_MAPPING.find? (fun p => p.1 = intent)).map Prod.snd with
  | Option.none => Option.none
  | some tools => get_tool_definition (if turn_off then tools.2 else tools.1)

def describe_tools_for_prompt : String :=
  String.intercalate "\n" (TOOL_DEFINITIONS.map fun d =>
    "- " ++ d.name ++ ": " ++ d.description ++ " (allowed args: " ++
      String.intercalate ", " d.allowed_args ++ ")")

/-- The exceptions prepare_service_payload can raise: ValueError for an
unknown tool, SanitizationError from the sanitizer or the required-argument
check, and (for a truthy non-mapping argument value, reachable only from
model output) the AttributeError .items() would raise. -/
inductive PrepErr where
  | unknownTool
  | san (e : SanErr)
  | attrError
deriving DecidableEq

/-- prepare_service_payload(tool_name, args). The tool name is looked up as a
dict key (a non-string never matches); `args or {}` turns a falsy argument
value into an empty dict. -/
def prepare_service_payload (tool_name : Value) (args : Value) :
    Except PrepErr (String × String × List (String × Value)) :=
  let definition? := match tool_name with
    | .str s => get_tool_definition s
    | _ => Option.none
  match definition? with
  | Option.none => .error .unknownTool
  | some definition =>
    match (if pyTruthy args then args else .dict []) with
    | .dict kvs =>
      match sanitize_tool_arguments (some kvs) definition.allowed_args with
      | .error e => .error (.san e)
      | .ok sanitized_args =>
        match definition.required_args.find? (fun key => !(sanitized_args.map Prod.fst).contains key) with
        | some key => .error (.san (.missingRequired key))
        | Option.none => .ok (definition.domain, definition.service, sanitized_args)
    | _ => .error .attrError

/-! ## app/logic/device_classifier.py -/

/-- The members of the DeviceDomain enum, i.e. the canonical domain strings
DeviceDomain(candidate) accepts. -/
def DEVICE_DOMAINS : List String :=
  ["alarm_control_panel", "binary_sensor", "camera", "climate", "cover",
   "device_tracker", "fan", "humidifier", "light", "lock", "media_player",
   "sensor", "switch", "vacuum", "unknown"]

/-- _to_domain_enum: DeviceDomain(domain) or UNKNOWN on ValueError,
projected to the enum value string. -/
def to_domain_enum (domain : String) : String :=
  if DEVICE_DOMAINS.contains domain then domain else "unknown"

/-- _DEFAULT_ALIASES as an ordered association list (iteration order is the
Python dict insertion order). -/
def DEFAULT_ALIASES : List (String × String) := [
  ("lamp", "light"), ("lampe", "light"), ("licht", "light"), ("light", "light"),
  ("switch", "switch"), ("plug", "switch"), ("outlet", "switch"), ("socket", "switch"),
  ("cover", "cover"), ("shade", "cover"), ("blind", "cover"), ("jalousie", "cover"),
  ("roller", "cover"),
  ("fan", "fan"), ("ventilator", "fan"),
  ("media", "media_player"), ("speaker", "media_player"), ("tv", "media_player"),
  ("thermostat", "climate"), ("ac", "climate"),
  ("vacuum", "vacuum")]

/-- The alias table of the shared default classifier: keys lower-cased at
construction (the defaults already are). -/
def classifierAliases : List (String × String) :=
  DEFAULT_ALIASES.map (fun kv => (pyLower kv.1, kv.2))

/-- DeviceClassifier._normalize_domain. -/
def normalize_domain (aliases : List (String × String)) (candidate : String) : Option String :=
  let c := pyLower candidate
  match lookupS aliases c with
  | some d => some d
  | Option.none =>
    if to_domain_enum c ≠ "unknown" then some (to_domain_enum c) else Option.none

/-- DeviceClassifier._candidate_domains: the stripped, lower-cased
device_class attribute (when non-empty) followed by the lower-cased
identifier prefix (when the identifier is non-empty). -/
def candidate_domains (entity_id : String) (attributes : List (String × Value)) : List String :=
  let device_class := pyLower (pyStrip (pyStr ((lookupV attributes "device_class").getD (Value.str ""))))
  (if device_class ≠ "" then [device_class] else []) ++
    (if entity_id ≠ "" then [pyLower (splitDot entity_id)] else [])

/-- DeviceClassifier.classify. The candidate loop keeps a normalized result
only when it is truthy; then the alias keys are scanned as substrings of the
lower-cased identifier in table order; then the last candidate (or the
"unknown" sentinel) is returned. -/
def DeviceClassifier.classify (aliases : List (String × String)) (entity_id : String)
    (attributes : List (String × Value)) : String :=
  let candidates := candidate_domains entity_id attributes
  match candidates.findSome? (fun candidate =>
      match normalize_domain aliases candidate with
      | some d => if d ≠ "" then some d else Option.none
      | Option.none => Option.none) with
  | some d => d
  | Option.none =>
    let lowered_id := if entity_id ≠ "" then pyLower entity_id else ""
    match aliases.findSome? (fun kv =>
        if isSubstrList kv.1.data lowered_id.data then some kv.2 else Option.none) with
    | some d => d
    | Option.none =>
      let domain_hint := (candidates.getLast?).getD ""
      if domain_hint ≠ "" then domain_hint else "unknown"

/-- classify_entity — the module-level helper bound to the shared default
classifier. -/
def classify_entity (entity_id : String) (attributes : List (String × Value)) : String :=
  DeviceClassifier.classify classifierAliases entity_id attributes

/-! ## app/services/semantic_router.py -/

structure SemanticRoute where
  intent : String
  domain : String
  requires_llm : Bool := false
  keywords : List String := []
deriving DecidableEq

/-- _DIRECT_PATTERNS in dict insertion order; the duplicate "musik" keyword
of the media tuple is kept as written. -/
def DIRECT_PATTERNS : List (String × List String) := [
  ("light_control", ["light", "lights", "licht", "lampe", "lampen"]),
  ("cover_control", ["rollo", "rolladen", "shade", "blinds", "jalousie"]),
  ("media_control", ["musik", "speaker", "musik", "tv", "fernseher", "media"]),
  ("climate_control", ["klima", "thermostat", "heizung", "heizer", "ac", "ventilator"]),
  ("switch_control", ["steckdose", "switch", "power", "schalte"])]

def INTENT_DOMAIN : List (String × String) := [
  ("light_control", "light"), ("cover_control", "cover"),
  ("media_control", "media_player"), ("climate_control", "climate"),
  ("switch_control", "switch")]

/-- The router's _contains_keyword: plain substring containment against the
lower-cased text. -/
def routerContains (text : String) (keywords : List String) : Bool :=
  keywords.any (fun keyword => strContains (pyLower text) keyword)

/-- semantic_route: first matching pattern wins, in table order. -/
def semantic_route (text : String) : Option SemanticRoute :=
  DIRECT_PATTERNS.findSome? fun p =>
    if routerContains text p.2 then
      some { intent := p.1, domain := (lookupS INTENT_DOMAIN p.1).getD "",
             requires_llm := false, keywords := p.2 }
    else Option.none

/-! ## app/services/discovery.py -/

/-- Failures of the two network collaborators (timeout vs transport/HTTP
error), used for both the control-plane client and the model client. -/
inductive NetErr where
  | timeout
  | transport (status : Nat)
deriving DecidableEq

structure EntityRecord where
  entity_id : String
  name : String
  domain : String
  state : String
  attributes : List (String × Value)

def IGNORED_DOMAINS : List String :=
  ["device_tracker", "binary_sensor", "sensor", "person", "zone", "sun"]

/-- The mutable fields of DiscoveryService together with its configuration
(set at construction, never mutated afterwards). -/
structure DiscoveryState where
  cache_max_entities : Nat := 200
  min_score : Nat := 65
  entities : List EntityRecord := []
  last_refresh : Nat := 0

/-- `attributes = state.get("attributes") or {}` for the mapping case (a
truthy non-mapping value would crash later lookups and is not modelled). -/
def attributesOf (v : Value) : List (String × Value) :=
  match v with
  | .dict kvs => kvs
  | _ => []

/-- The record-building loop of refresh: skip states without a truthy
entity_id, classify, drop ignored domains, and stop once the cache cap is
reached (the length check runs after each append). `need` is the number of
records still accepted. -/
def refreshRecords (need : Nat) : List (List (String × Value)) → List EntityRecord
  | [] => []
  | state :: rest =>
    let entity_idV := (lookupV state "entity_id").getD Value.none
    if !pyTruthy entity_idV then refreshRecords need rest
    else
      let entity_id := pyStr entity_idV
      let attributes := attributesOf ((lookupV state "attributes").getD Value.none)
      let domain := classify_entity entity_id attributes
      if IGNORED_DOMAINS.contains domain then refreshRecords need rest
      else
        let nameV := (lookupV attributes "friendly_name").getD Value.none
        let record : EntityRecord :=
          { entity_id := entity_id,
            name := pyStr (if pyTruthy nameV then nameV else .str entity_id),
            domain := domain,
            state := pyStr ((lookupV state "state").getD (.str "unknown")),
            attributes := attributes }
        if need ≤ 1 then [record] else record :: refreshRecords (need - 1) rest

/-- DiscoveryService.refresh. The fetch result is passed in: a raised fetch
error propagates before anything is assigned, so the previous snapshot and
timestamp survive unchanged; on success the snapshot and timestamp are
replaced wholesale. -/
def DiscoveryService.refresh (st : DiscoveryState)
    (fetched : Except NetErr (List (List (String × Value)))) (now : Nat) :
    DiscoveryState × Option NetErr :=
  match fetched with
  | .error e => (st, some e)
  | .ok states =>
    ({ st with entities := refreshRecords st.cache_max_entities states, last_refresh := now },
      Option.none)

/-- The selection loop of get_context_entities (the domain filter is skipped
when the filter collection is falsy; the length check runs after each
append). -/
def takeContext (need : Nat) (domains : Option (List String)) : List EntityRecord → List EntityRecord
  | [] => []
  | record :: rest =>
    let keep := match domains with
      | Option.none => true
      | some ds => if ds.isEmpty then true else ds.contains record.domain
    if !keep then takeContext need domains rest
    else if need ≤ 1 then [record]
    else record :: takeContext (need - 1) domains rest

/-- DiscoveryService.get_context_entities. -/
def get_context_entities (st : DiscoveryState) (limit : Nat) (domains : Option (List String)) :
    List (List (String × Value)) :=
  (takeContext limit domains st.entities).map fun record =>
    [("entity_id", Value.str record.entity_id),
     ("domain", Value.str record.domain),
     ("state", Value.str record.state),
     ("friendly_name", (lookupV record.attributes "friendly_name").getD (Value.str record.name))]

/-! ## app/logic/context.py -/

structure ContextEntry where
  user_text : String
  action_summary : String
deriving DecidableEq

/-- ConversationContext.add_entry on a deque with maxlen (10 for the
processor's context): append and evict the oldest beyond the capacity. -/
def ConversationContext.add_entry (history : List ContextEntry) (max_length : Nat)
    (user_text action_summary : String) : List ContextEntry :=
  let h := history ++ [{ user_text := user_text, action_summary := action_summary }]
  h.drop (h.length - max_length)

/-- ConversationContext.as_prompt_block. -/
def ConversationContext.as_prompt_block (history : List ContextEntry) : String :=
  if history.isEmpty then ""
  else
    String.intercalate "\n" ("Recent context:" ::
      history.flatMap (fun e => ["User: " ++ e.user_text, "Action: " ++ e.action_summary]))

/-! ## app/logic/processor.py -/

/-- _NEGATION_KEYWORDS (a Python set; only membership is ever used, so the
order of this list is irrelevant). -/
def NEGATION_KEYWORDS : List String :=
  ["aus", "abschalten", "ausschalten", "ausmachen", "stop", "stoppe", "pause",
   "off", "schließen", "schliesse", "close", "halt"]

/-- A word character of the regex class [\wäöüß] on the character sets the
repository handles (ASCII word characters plus the German letters). -/
def isWordChar (c : Char) : Bool :=
  c.isAlphanum || c = '_' || c = 'ä' || c = 'ö' || c = 'ü' || c = 'ß' ||
    c = 'Ä' || c = 'Ö' || c = 'Ü'

/-- Collapse runs of spaces to one space (after every non-word character has
been mapped to a space, this equals re.sub of the non-word-run class by one
space). -/
def collapseSp : List Char → List Char
  | [] => []
  | c :: rest =>
    match rest with
    | [] => [c]
    | c2 :: _ => if c = ' ' && c2 = ' ' then collapseSp rest else c :: collapseSp rest

/-- The processor's _contains_keyword: normalize the lower-cased text by
collapsing non-word runs to single spaces, pad with boundary spaces, and look
for any keyword as a whole word. -/
def containsKeywordProc (text : String) (keywords : List String) : Bool :=
  let normalized := collapseSp ((pyLower text).data.map (fun c => if isWordChar c then c else ' '))
  let wrapped := ' ' :: (normalized ++ [' '])
  keywords.any (fun keyword => isSubstrList (' ' :: (keyword.data ++ [' '])) wrapped)

def isDig (c : Char) : Bool := '0' ≤ c && c ≤ '9'

def digitVal (c : Char) : Nat := c.toNat - 48

/-- After \s* the next character must be '%'. -/
def afterWsPct (cs : List Char) : Bool :=
  match cs.dropWhile isPySpace with
  | '%' :: _ => true
  | _ => false

/-- One attempt of _BRIGHTNESS_PATTERN = (\d{1,3})\s*% at a fixed position:
the digit group is greedy and backtracks from three digits down to one. -/
def brightnessAt : List Char → Option Nat
  | c1 :: c2 :: c3 :: rest =>
    if isDig c1 && isDig c2 && isDig c3 && afterWsPct rest then
      some (100 * digitVal c1 + 10 * digitVal c2 + digitVal c3)
    else if isDig c1 && isDig c2 && afterWsPct (c3 :: rest) then
      some (10 * digitVal c1 + digitVal c2)
    else if isDig c1 && afterWsPct (c2 :: c3 :: rest) then some (digitVal c1)
    else Option.none
  | [c1, c2] =>
    if isDig c1 && isDig c2 && afterWsPct [] then some (10 * digitVal c1 + digitVal c2)
    else if isDig c1 && afterWsPct [c2] then some (digitVal c1)
    else Option.none
  | [c1] => if isDig c1 && afterWsPct [] then some (digitVal c1) else Option.none
  | [] => Option.none

def scanBrightness : List Char → Option Nat
  | [] => Option.none
  | c :: rest =>
    match brightnessAt (c :: rest) with
    | some v => some v
    | Option.none => scanBrightness rest

/-- _extract_brightness_pct: leftmost match of (\d{1,3})\s*%, clamped into
1..100. -/
def extract_brightness_pct (text : String) : Option Int :=
  (scanBrightness text.data).map (fun v => max 1 (min (v : Int) 100))

/-- One match of (\d{1,2}(?:\.\d)?) starting at a digit: up to two digits
(greedy), then optionally a dot and one digit. Returns the value scaled by
ten together with the rest of the input. -/
def tempTokenFrom (c1 : Char) (rest : List Char) : Nat × List Char :=
  let (ip, after) := match rest with
    | c2 :: rest2 => if isDig c2 then (10 * digitVal c1 + digitVal c2, rest2) else (digitVal c1, rest)
    | [] => (digitVal c1, rest)
  match after with
  | '.' :: d :: rest3 => if isDig d then (10 * ip + digitVal d, rest3) else (10 * ip, after)
  | _ => (10 * ip, after)

/-- The findall loop of _extract_temperature with the in-range check
(5 <= value <= 35, on values scaled by ten): the first in-range number wins;
matches do not overlap. The fuel always exceeds the list length, so it never
runs out. -/
def scanTemp : Nat → List Char → Option Nat
  | 0, _ => Option.none
  | _ + 1, [] => Option.none
  | fuel + 1, c :: rest =>
    if isDig c then
      let (tenths, after) := tempTokenFrom c rest
      if 50 ≤ tenths && tenths ≤ 350 then some tenths else scanTemp fuel after
    else scanTemp fuel rest

/-- _extract_temperature, as a float scaled by ten (every number the pattern
can produce has at most one decimal digit, so this is exact). -/
def extract_temperature (text : String) : Option Nat :=
  scanTemp (text.data.length + 1) text.data

/-- The float value a scaled temperature stands for. -/
def tenthsToRat (tenths : Nat) : Rat := (tenths : Rat) / 10

/-- Everything the processor raises or lets propagate; each constructor is a
distinct Python exception class crossing the process() boundary. -/
inductive ProcError where
  | runtime (msg : String)
  | sanitization (e : SanErr)
  | valueError
  | attributeError
  | haError (e : NetErr)
  | llmError (e : NetErr)
deriving DecidableEq

/-- One call_service invocation as handed to the control-plane client. -/
structure Dispatch where
  domain : String
  service : String
  payload : List (String × Value)

/-- The two network collaborators of the processor, as per-request oracles:
discovery.search outcome (the fuzzy scorer is an external library),
ha_api.call_service and ollama.ask_ollama. -/
structure Oracle where
  search : String → Nat → List String → List EntityRecord
  call_service : String → String → List (String × Value) → Except NetErr Value
  ask_ollama : String → String → Except NetErr (List (String × Value))

/-- A processor outcome: the returned result dict or the propagating
exception, the conversation history afterwards, and the list of dispatches
handed to the control plane along the way. -/
def ProcOutcome := Except ProcError (List (String × Value)) × List ContextEntry × List Dispatch

/-- Processor._handle_direct_path. `Option.none` is the soft fall-through to
the model path; a `some` carries the returned dict or the raised error. -/
def Processor.handle_direct_path (o : Oracle) (ctx : List ContextEntry)
    (text intent domain : String) : Option ProcOutcome :=
  let turn_off := containsKeywordProc text NEGATION_KEYWORDS
  match tool_for_intent intent turn_off with
  | Option.none => Option.none
  | some tool =>
    match o.search text 1 [domain] with
    | [] => Option.none
    | entity :: _ =>
      let args : List (String × Value) := [("entity_id", Value.str entity.entity_id)]
      let args := if tool.name = "ha_light_turn_on" then
          match extract_brightness_pct text with
          | some b => args ++ [("brightness_pct", Value.int b)]
          | Option.none => args
        else args
      let args? : Option (List (String × Value)) :=
        if tool.name = "ha_climate_set_temperature" then
          match extract_temperature text with
          | some tenths => some (args ++ [("temperature", Value.float (tenthsToRat tenths))])
          | Option.none => Option.none
        else some args
      match args? with
      | Option.none => Option.none
      | some args =>
        if tool.required_args.any (fun r => !(args.map Prod.fst).contains r) then Option.none
        else
          match prepare_service_payload (.str tool.name) (.dict args) with
          | .error .attrError => some (.error .attributeError, ctx, [])
          | .error _ => some (.error (.runtime "Invalid direct command arguments"), ctx, [])
          | .ok (domain_name, service_name, payload) =>
            let dispatched : Dispatch := ⟨domain_name, service_name, payload⟩
            match o.call_service domain_name service_name payload with
            | .error e => some (.error (.haError e), ctx, [dispatched])
            | .ok result =>
              let entity_domain := classify_entity entity.entity_id entity.attributes
              let summary := service_name ++ " (" ++ entity_domain ++ ") -> " ++ entity.entity_id
              let ctx2 := ConversationContext.add_entry ctx 10 text summary
              some (.ok [("path", Value.str "direct"),
                         ("entity_id", Value.str entity.entity_id),
                         ("service", Value.str (domain_name ++ "." ++ service_name)),
                         ("result", result)], ctx2, [dispatched])

/-- Processor._handle_llm_path. -/
def Processor.handle_llm_path (o : Oracle) (disc : DiscoveryState) (ctx : List ContextEntry)
    (text : String) : ProcOutcome :=
  let context_entities := get_context_entities disc 5 Option.none
  let context_block := ConversationContext.as_prompt_block ctx
  let system_instruction :=
    "You convert German or English smart home requests into Home Assistant tool calls.\n" ++
    "Always respond with JSON: \x7b\"tool_name\": string, \"arguments\": object\x7d.\n" ++
    "Never explain yourself. Only return the JSON object.\n" ++
    "Available tools:\n" ++ describe_tools_for_prompt
  let user_prompt :=
    "User request: " ++ text ++ "\n" ++
    "Known entities: " ++ pyReprV (Value.list (context_entities.map Value.dict)) ++ "\n" ++
    context_block
  match o.ask_ollama user_prompt system_instruction with
  | .error e => (.error (.llmError e), ctx, [])
  | .ok llm_response =>
    let tool_nameV := (lookupV llm_response "tool_name").getD Value.none
    let tool_name := if pyTruthy tool_nameV then tool_nameV else Value.str ""
    let argumentsV := (lookupV llm_response "arguments").getD Value.none
    let arguments := if pyTruthy argumentsV then argumentsV else Value.dict []
    if !pyTruthy tool_name then (.error (.runtime "LLM response missing tool_name"), ctx, [])
    else
      match prepare_service_payload tool_name arguments with
      | .error (.san e) => (.error (.sanitization e), ctx, [])
      | .error .unknownTool => (.error .valueError, ctx, [])
      | .error .attrError => (.error .attributeError, ctx, [])
      | .ok (domain_name, service_name, payload) =>
        let dispatched : Dispatch := ⟨domain_name, service_name, payload⟩
        match o.call_service domain_name service_name payload with
        | .error e => (.error (.haError e), ctx, [dispatched])
        | .ok result =>
          let summary := service_name ++ " -> " ++
            pyStr ((lookupV payload "entity_id").getD (Value.str "unknown"))
          let ctx2 := ConversationContext.add_entry ctx 10 text summary
          (.ok [("path", Value.str "llm"),
                ("service", Value.str (domain_name ++ "." ++ service_name)),
                ("entity_id", (lookupV payload "entity_id").getD Value.none),
                ("payload", Value.dict payload),
                ("result", result)], ctx2, [dispatched])

/-- Processor.process: fast route, direct path, fall back to the model path
when the route or the direct path yields nothing. -/
def Processor.process (o : Oracle) (disc : DiscoveryState) (ctx : List ContextEntry)
    (text : String) : ProcOutcome :=
  match semantic_route text with
  | some route =>
    match Processor.handle_direct_path o ctx text route.intent route.domain with
    | some outcome => outcome
    | Option.none => Processor.handle_llm_path o disc ctx text
  | Option.none => Processor.handle_llm_path o disc ctx text

/-! ## Specification-side predicates over sanitized values -/

mutual
/-- No map anywhere inside the value holds a key starting with "__". -/
def noDunderV : Value → Bool
  | .str _ => true
  | .int _ => true
  | .float _ => true
  | .bool _ => true
  | .list xs => noDunderL xs
  | .dict kvs => noDunderD kvs
  | .none => true

def noDunderL : List Value → Bool
  | [] => true
  | v :: t => noDunderV v && noDunderL t

def noDunderD : List (String × Value) → Bool
  | [] => true
  | (k, v) :: t => !strStarts k "__" && noDunderV v && noDunderD t
end

mutual
/-- Every list and every map anywhere inside the value has at most 20
entries. -/
def boundedV : Value → Bool
  | .str _ => true
  | .int _ => true
  | .float _ => true
  | .bool _ => true
  | .list xs => decide (xs.length ≤ 20) && boundedL xs
  | .dict kvs => decide (kvs.length ≤ 20) && boundedD kvs
  | .none => true

def boundedL : List Value → Bool
  | [] => true
  | v :: t => boundedV v && boundedL t

def boundedD : List (String × Value) → Bool
  | [] => true
  | (_, v) :: t => boundedV v && boundedD t
end

mutual
/-- The exact success condition of _sanitize_value: within the first 20
entries of every list and map (deeper entries are never examined), no value
of an unsupported type and no map key starting with "__". -/
def sanOkV : Value → Bool
  | .str _ => true
  | .int _ => true
  | .float _ => true
  | .bool _ => true
  | .list xs => sanOkL 20 xs
  | .dict kvs => sanOkD 20 kvs
  | .none => false

def sanOkL : Nat → List Value → Bool
  | _, [] => true
  | 0, _ :: _ => true
  | n+1, v :: t => sanOkV v && sanOkL n t

def sanOkD : Nat → List (String × Value) → Bool
  | _, [] => true
  | 0, _ :: _ => true
  | n+1, (k, v) :: t => !strStarts k "__" && sanOkV v && sanOkD n t
end

/-- The exact success condition of the top-level filter of
sanitize_tool_arguments: dropped entries (key not allowed, or key starting
with "__") are never examined; kept entries must satisfy `sanOkV`. -/
def sanOkTop (allowed : List String) : List (String × Value) → Bool
  | [] => true
  | (k, v) :: t =>
    (if !allowed.contains k || strStarts k "__" then true else sanOkV v) && sanOkTop allowed t

def isOkE {ε α : Type} : Except ε α → Bool
  | .ok _ => true
  | .error _ => false

/-! ## Sanitizer lemmas -/

theorem sanitize_noDunder_all :
    (∀ v, ∀ w, sanitizeValue v = Except.ok w → noDunderV w = true) ∧
    (∀ n kvs, ∀ m, sanitizeDict n kvs = Except.ok m → noDunderD m = true) ∧
    (∀ n xs, ∀ l, sanitizeList n xs = Except.ok l → noDunderL l = true) := by
  refine sanitizeValue.mutual_induct
    (fun v => ∀ w, sanitizeValue v = Except.ok w → noDunderV w = true)
    (fun n kvs => ∀ m, sanitizeDict n kvs = Except.ok m → noDunderD m = true)
    (fun n xs => ∀ l, sanitizeList n xs = Except.ok l → noDunderL l = true)
    ?_ ?_ ?_ ?_ ?_ ?_ ?_ ?_ ?_ ?_ ?_ ?_ ?_ ?_
  · intro s w h
    simp only [sanitizeValue, Except.ok.injEq] at h
    subst h; rfl
  · intro n w h
    simp only [sanitizeValue, Except.ok.injEq] at h
    subst h; rfl
  · intro q w h
    simp only [sanitizeValue, Except.ok.injEq] at h
    subst h; rfl
  · intro b w h
    simp only [sanitizeValue, Except.ok.injEq] at h
    subst h; rfl
  · intro xs ih w h
    simp only [sanitizeValue] at h
    cases hl : sanitizeList 20 xs with
    | error e => rw [hl] at h; exact absurd h (by simp [Except.map])
    | ok l =>
      rw [hl] at h
      simp only [Except.map, Except.ok.injEq] at h
      subst h
      exact ih l hl
  · intro kvs ih w h
    simp only [sanitizeValue] at h
    cases hl : sanitizeDict 20 kvs with
    | error e => rw [hl] at h; exact absurd h (by simp [Except.map])
    | ok m =>
      rw [hl] at h
      simp only [Except.map, Except.ok.injEq] at h
      subst h
      exact ih m hl
  · intro w h
    exact absurd h (by simp [sanitizeValue])
  · intro n l h
    simp only [sanitizeList, Except.ok.injEq] at h
    subst h; rfl
  · intro hd tl l h
    simp only [sanitizeList, Except.ok.injEq] at h
    subst h; rfl
  · intro n v t ihv iht l h
    simp only [sanitizeList] at h
    cases hv : sanitizeValue v with
    | error e => rw [hv] at h; exact absurd h (by simp [Except.bind, Bind.bind])
    | ok w =>
      rw [hv] at h
      cases ht : sanitizeList n t with
      | error e =>
        rw [ht] at h
        exact absurd h (by simp [Except.bind, Bind.bind])
      | ok l2 =>
        rw [ht] at h
        simp only [Except.bind, Bind.bind, Except.ok.injEq] at h
        subst h
        simp only [noDunderL, Bool.and_eq_true]
        exact ⟨ihv w hv, iht l2 ht⟩
  · intro n m h
    simp only [sanitizeDict, Except.ok.injEq] at h
    subst h; rfl
  · intro hd tl m h
    simp only [sanitizeDict, Except.ok.injEq] at h
    subst h; rfl
  · intro n k v t hk m h
    simp only [sanitizeDict, hk, if_true] at h
    exact absurd h (by simp)
  · intro n k v t hk ihv iht m h
    simp only [sanitizeDict, hk, if_false, Bool.false_eq_true] at h
    cases hv : sanitizeValue v with
    | error e => rw [hv] at h; exact absurd h (by simp [Except.bind, Bind.bind])
    | ok w =>
      rw [hv] at h
      cases ht : sanitizeDict n t with
      | error e =>
        rw [ht] at h
        exact absurd h (by simp [Except.bind, Bind.bind])
      | ok m2 =>
        rw [ht] at h
        simp only [Except.bind, Bind.bind, Except.ok.injEq] at h
        subst h
        simp only [noDunderD, Bool.and_eq_true]
        exact ⟨⟨by simp [hk], ihv w hv⟩, iht m2 ht⟩

theorem sanitize_bounded_all :
    (∀ v, ∀ w, sanitizeValue v = Except.ok w → boundedV w = true) ∧
    (∀ n kvs, ∀ m, sanitizeDict n kvs = Except.ok m → m.length ≤ n ∧ boundedD m = true) ∧
    (∀ n xs, ∀ l, sanitizeList n xs = Except.ok l → l.length ≤ n ∧ boundedL l = true) := by
  refine sanitizeValue.mutual_induct
    (fun v => ∀ w, sanitizeValue v = Except.ok w → boundedV w = true)
    (fun n kvs => ∀ m, sanitizeDict n kvs = Except.ok m → m.length ≤ n ∧ boundedD m = true)
    (fun n xs => ∀ l, sanitizeList n xs = Except.ok l → l.length ≤ n ∧ boundedL l = true)
    ?_ ?_ ?_ ?_ ?_ ?_ ?_ ?_ ?_ ?_ ?_ ?_ ?_ ?_
  · intro s w h
    simp only [sanitizeValue, Except.ok.injEq] at h
    subst h; rfl
  · intro n w h
    simp only [sanitizeValue, Except.ok.injEq] at h
    subst h; rfl
  · intro q w h
    simp only [sanitizeValue, Except.ok.injEq] at h
    subst h; rfl
  · intro b w h
    simp only [sanitizeValue, Except.ok.injEq] at h
    subst h; rfl
  · intro xs ih w h
    simp only [sanitizeValue] at h
    cases hl : sanitizeList 20 xs with
    | error e => rw [hl] at h; exact absurd h (by simp [Except.map])
    | ok l =>
      rw [hl] at h
      simp only [Except.map, Except.ok.injEq] at h
      subst h
      have := ih l hl
      simp only [boundedV, Bool.and_eq_true, decide_eq_true_eq]
      exact ⟨this.1, this.2⟩
  · intro kvs ih w h
    simp only [sanitizeValue] at h
    cases hl : sanitizeDict 20 kvs with
    | error e => rw [hl] at h; exact absurd h (by simp [Except.map])
    | ok m =>
      rw [hl] at h
      simp only [Except.map, Except.ok.injEq] at h
      subst h
      have := ih m hl
      simp only [boundedV, Bool.and_eq_true, decide_eq_true_eq]
      exact ⟨this.1, this.2⟩
  · intro w h
    exact absurd h (by simp [sanitizeValue])
  · intro n l h
    simp only [sanitizeList, Except.ok.injEq] at h
    subst h
    exact ⟨Nat.zero_le n, rfl⟩
  · intro hd tl l h
    simp only [sanitizeList, Except.ok.injEq] at h
    subst h
    exact ⟨Nat.le_refl 0, rfl⟩
  · intro n v t ihv iht l h
    simp only [sanitizeList] at h
    cases hv : sanitizeValue v with
    | error e => rw [hv] at h; exact absurd h (by simp [Except.bind, Bind.bind])
    | ok w =>
      rw [hv] at h
      cases ht : sanitizeList n t with
      | error e =>
        rw [ht] at h
        exact absurd h (by simp [Except.bind, Bind.bind])
      | ok l2 =>
        rw [ht] at h
        simp only [Except.bind, Bind.bind, Except.ok.injEq] at h
        subst h
        refine ⟨by simpa using Nat.succ_le_succ (iht l2 ht).1, ?_⟩
        simp only [boundedL, Bool.and_eq_true]
        exact ⟨ihv w hv, (iht l2 ht).2⟩
  · intro n m h
    simp only [sanitizeDict, Except.ok.injEq] at h
    subst h
    exact ⟨Nat.zero_le n, rfl⟩
  · intro hd tl m h
    simp only [sanitizeDict, Except.ok.injEq] at h
    subst h
    exact ⟨Nat.le_refl 0, rfl⟩
  · intro n k v t hk m h
    simp only [sanitizeDict, hk, if_true] at h
    exact absurd h (by simp)
  · intro n k v t hk ihv iht m h
    simp only [sanitizeDict, hk, if_false, Bool.false_eq_true] at h
    cases hv : sanitizeValue v with
    | error e => rw [hv] at h; exact absurd h (by simp [Except.bind, Bind.bind])
    | ok w =>
      rw [hv] at h
      cases ht : sanitizeDict n t with
      | error e =>
        rw [ht] at h
        exact absurd h (by simp [Except.bind, Bind.bind])
      | ok m2 =>
        rw [ht] at h
        simp only [Except.bind, Bind.bind, Except.ok.injEq] at h
        subst h
        refine ⟨by simpa using Nat.succ_le_succ (iht m2 ht).1, ?_⟩
        simp only [boundedD, Bool.and_eq_true]
        exact ⟨ihv w hv, (iht m2 ht).2⟩

theorem sanitize_isOk_all :
    (∀ v, isOkE (sanitizeValue v) = sanOkV v) ∧
    (∀ n kvs, isOkE (sanitizeDict n kvs) = sanOkD n kvs) ∧
    (∀ n xs, isOkE (sanitizeList n xs) = sanOkL n xs) := by
  refine sanitizeValue.mutual_induct
    (fun v => isOkE (sanitizeValue v) = sanOkV v)
    (fun n kvs => isOkE (sanitizeDict n kvs) = sanOkD n kvs)
    (fun n xs => isOkE (sanitizeList n xs) = sanOkL n xs)
    ?_ ?_ ?_ ?_ ?_ ?_ ?_ ?_ ?_ ?_ ?_ ?_ ?_ ?_
  · intro s; rfl
  · intro n; rfl
  · intro q; rfl
  · intro b; rfl
  · intro xs ih
    simp only [sanitizeValue, sanOkV, ← ih]
    cases hl : sanitizeList 20 xs <;> simp [Except.map, isOkE]
  · intro kvs ih
    simp only [sanitizeValue, sanOkV, ← ih]
    cases hl : sanitizeDict 20 kvs <;> simp [Except.map, isOkE]
  · rfl
  · intro n; cases n <;> rfl
  · intro hd tl; rfl
  · intro n v t ihv iht
    simp only [sanitizeList, sanOkL, ← ihv, ← iht]
    cases hv : sanitizeValue v with
    | error e => simp [Except.bind, Bind.bind, isOkE]
    | ok w =>
      cases ht : sanitizeList n t <;> simp [Except.bind, Bind.bind, isOkE]
  · intro n; cases n <;> rfl
  · intro hd tl; rfl
  · intro n k v t hk
    simp [sanitizeDict, sanOkD, hk, isOkE]
  · intro n k v t hk ihv iht
    simp only [sanitizeDict, sanOkD, hk, if_false, Bool.false_eq_true, Bool.not_eq_true,
      Bool.not_true, Bool.false_and, ← ihv, ← iht]
    cases hv : sanitizeValue v with
    | error e => simp [Except.bind, Bind.bind, isOkE, hk]
    | ok w =>
      cases ht : sanitizeDict n t <;> simp [Except.bind, Bind.bind, isOkE, hk]

theorem sanitizeTop_props (allowed : List String) :
    ∀ kvs m, sanitizeTop allowed kvs = Except.ok m →
      ∀ kv ∈ m, kv.1 ∈ allowed ∧ strStarts kv.1 "__" = false ∧
        noDunderV kv.2 = true ∧ boundedV kv.2 = true := by
  intro kvs
  induction kvs with
  | nil =>
    intro m h kv hkv
    simp only [sanitizeTop, Except.ok.injEq] at h
    subst h
    simp at hkv
  | cons p t ih =>
    obtain ⟨k, v⟩ := p
    intro m h kv hkv
    simp only [sanitizeTop] at h
    by_cases hskip : (!allowed.contains k || strStarts k "__") = true
    · rw [if_pos hskip] at h
      exact ih m h kv hkv
    · rw [if_neg hskip] at h
      simp only [Bool.or_eq_true, Bool.not_eq_true', not_or, Bool.not_eq_true] at hskip
      cases hv : sanitizeValue v with
      | error e => rw [hv] at h; exact absurd h (by simp [Except.bind, Bind.bind])
      | ok w =>
        rw [hv] at h
        cases ht : sanitizeTop allowed t with
        | error e =>
          rw [ht] at h
          exact absurd h (by simp [Except.bind, Bind.bind])
        | ok ws =>
          rw [ht] at h
          simp only [Except.bind, Bind.bind, Except.ok.injEq] at h
          subst h
          rcases List.mem_cons.mp hkv with hkv1 | hkv2
          · subst hkv1
            refine ⟨by simpa using hskip.1, hskip.2, ?_, ?_⟩
            · exact sanitize_noDunder_all.1 v w hv
            · exact sanitize_bounded_all.1 v w hv
          · exact ih ws ht kv hkv2

theorem sanitizeTop_length (allowed : List String) :
    ∀ kvs m, sanitizeTop allowed kvs = Except.ok m → m.length ≤ kvs.length := by
  intro kvs
  induction kvs with
  | nil =>
    intro m h
    simp only [sanitizeTop, Except.ok.injEq] at h
    subst h
    exact Nat.le_refl 0
  | cons p t ih =>
    obtain ⟨k, v⟩ := p
    intro m h
    simp only [sanitizeTop] at h
    by_cases hskip : (!allowed.contains k || strStarts k "__") = true
    · rw [if_pos hskip] at h
      exact Nat.le_succ_of_le (ih m h)
    · rw [if_neg hskip] at h
      cases hv : sanitizeValue v with
      | error e => rw [hv] at h; exact absurd h (by simp [Except.bind, Bind.bind])
      | ok w =>
        rw [hv] at h
        cases ht : sanitizeTop allowed t with
        | error e =>
          rw [ht] at h
          exact absurd h (by simp [Except.bind, Bind.bind])
        | ok ws =>
          rw [ht] at h
          simp only [Except.bind, Bind.bind, Except.ok.injEq] at h
          subst h
          simpa using Nat.succ_le_succ (ih ws ht)

theorem sanitizeTop_isOk (allowed : List String) :
    ∀ kvs, isOkE (sanitizeTop allowed kvs) = sanOkTop allowed kvs := by
  intro kvs
  induction kvs with
  | nil => rfl
  | cons p t ih =>
    obtain ⟨k, v⟩ := p
    simp only [sanitizeTop, sanOkTop]
    by_cases hskip : (!allowed.contains k || strStarts k "__") = true
    · rw [if_pos hskip, if_pos hskip, Bool.true_and]
      exact ih
    · rw [if_neg hskip, if_neg hskip]
      rw [← sanitize_isOk_all.1 v, ← ih]
      cases hv : sanitizeValue v with
      | error e => simp [Except.bind, Bind.bind, isOkE]
      | ok w =>
        cases ht : sanitizeTop allowed t <;> simp [Except.bind, Bind.bind, isOkE]

theorem sanitize_args_props (args : Option (List (String × Value))) (allowed : List String)
    (m : List (String × Value)) (h : sanitize_tool_arguments args allowed = Except.ok m) :
    ∀ kv ∈ m, kv.1 ∈ allowed ∧ strStarts kv.1 "__" = false ∧
      noDunderV kv.2 = true ∧ boundedV kv.2 = true := by
  unfold sanitize_tool_arguments at h
  by_cases he : allowed.isEmpty
  · rw [if_pos he] at h; cases h
  · rw [if_neg he] at h
    cases args with
    | none =>
      simp only [Except.ok.injEq] at h
      subst h
      intro kv hkv
      simp at hkv
    | some kvs => exact sanitizeTop_props allowed kvs m h

theorem sanitize_args_isOk (args : Option (List (String × Value))) (allowed : List String) :
    isOkE (sanitize_tool_arguments args allowed) =
      (!allowed.isEmpty &&
        (match args with
         | Option.none => true
         | some kvs => sanOkTop allowed kvs)) := by
  unfold sanitize_tool_arguments
  by_cases he : allowed.isEmpty
  · rw [if_pos he, he]; rfl
  · rw [if_neg he]
    have hne : (!allowed.isEmpty) = true := by simpa using he
    rw [hne, Bool.true_and]
    cases args with
    | none => rfl
    | some kvs => exact sanitizeTop_isOk allowed kvs

/-! ## Dispatch lemmas -/

/-- The payload went through prepare_service_payload (and hence through the
sanitizer whitelist) before being dispatched. -/
def dispatchPrepared (d : Dispatch) : Prop :=
  ∃ name args, prepare_service_payload name args = Except.ok (d.domain, d.service, d.payload)

/-- The dispatched (domain, service) pair comes from a registered capability
looked up by name and every payload key is one of its allowed argument
names. -/
def dispatchWhitelisted (d : Dispatch) : Prop :=
  ∃ name td, get_tool_definition name = some td ∧
    d.domain = td.domain ∧ d.service = td.service ∧
    ∀ kv ∈ d.payload, kv.1 ∈ td.allowed_args

theorem prepare_ok_facts (tn a : Value) (dm sv : String) (p : List (String × Value))
    (h : prepare_service_payload tn a = Except.ok (dm, sv, p)) :
    ∃ name td, get_tool_definition name = some td ∧ dm = td.domain ∧ sv = td.service ∧
      (∀ kv ∈ p, kv.1 ∈ td.allowed_args ∧ strStarts kv.1 "__" = false ∧
        noDunderV kv.2 = true ∧ boundedV kv.2 = true) ∧
      (∀ r ∈ td.required_args, (p.map Prod.fst).contains r = true) := by
  cases tn with
  | str s =>
    simp only [prepare_service_payload] at h
    split at h
    · cases h
    · rename_i td hdef
      split at h
      · rename_i kvs hkvs
        split at h
        · cases h
        · rename_i sa hs
          split at h
          · cases h
          · rename_i hfind
            simp only [Except.ok.injEq, Prod.mk.injEq] at h
            obtain ⟨h1, h2, h3⟩ := h
            subst h1; subst h2; subst h3
            refine ⟨s, td, hdef, rfl, rfl, sanitize_args_props _ _ _ hs, ?_⟩
            intro r hr
            have := List.find?_eq_none.mp hfind r hr
            simpa using this
      · cases h
  | int n => simp only [prepare_service_payload] at h; cases h
  | float q => simp only [prepare_service_payload] at h; cases h
  | bool b => simp only [prepare_service_payload] at h; cases h
  | list xs => simp only [prepare_service_payload] at h; cases h
  | dict kvs => simp only [prepare_service_payload] at h; cases h
  | none => simp only [prepare_service_payload] at h; cases h

theorem prepared_whitelisted (d : Dispatch) (h : dispatchPrepared d) : dispatchWhitelisted d := by
  obtain ⟨name, args, hp⟩ := h
  obtain ⟨n, td, hdef, h1, h2, hmem, -⟩ := prepare_ok_facts name args d.domain d.service d.payload hp
  exact ⟨n, td, hdef, h1, h2, fun kv hkv => (hmem kv hkv).1⟩

theorem llm_mem_dispatch (o : Oracle) (disc : DiscoveryState) (ctx : List ContextEntry)
    (text : String) (d : Dispatch)
    (hd : d ∈ (Processor.handle_llm_path o disc ctx text).2.2) : dispatchPrepared d := by
  simp only [Processor.handle_llm_path] at hd
  repeat' split at hd
  all_goals
    first
    | (simp only [List.mem_singleton] at hd
       subst hd
       exact ⟨_, _, by assumption⟩)
    | simp at hd

theorem direct_mem_dispatch (o : Oracle) (ctx : List ContextEntry)
    (text intent domain : String) (out : ProcOutcome) (d : Dispatch)
    (hout : Processor.handle_direct_path o ctx text intent domain = some out)
    (hd : d ∈ out.2.2) : dispatchPrepared d := by
  simp only [Processor.handle_direct_path] at hout
  repeat' split at hout
  all_goals
    first
    | (injection hout with h2
       subst h2)
    | injection hout
  all_goals
    first
    | (simp at hd
       subst hd
       exact ⟨_, _, by assumption⟩)
    | simp at hd

theorem process_mem_dispatch (o : Oracle) (disc : DiscoveryState) (ctx : List ContextEntry)
    (text : String) (d : Dispatch)
    (hd : d ∈ (Processor.process o disc ctx text).2.2) : dispatchPrepared d := by
  unfold Processor.process at hd
  split at hd
  · rename_i route hroute
    cases hdir : Processor.handle_direct_path o ctx text route.intent route.domain with
    | none =>
      rw [hdir] at hd
      exact llm_mem_dispatch o disc ctx text d hd
    | some out =>
      rw [hdir] at hd
      exact direct_mem_dispatch o ctx text route.intent route.domain out d hdir hd
  · exact llm_mem_dispatch o disc ctx text d hd

/-! ## Result-shape lemmas -/

theorem llm_ok_props (o : Oracle) (disc : DiscoveryState) (ctx : List ContextEntry)
    (text : String) (out : ProcOutcome) (r : List (String × Value))
    (hout : Processor.handle_llm_path o disc ctx text = out)
    (hr : out.1 = Except.ok r) :
    r.map Prod.fst = ["path", "service", "entity_id", "payload", "result"] ∧
      lookupV r "path" = some (Value.str "llm") ∧ out.2.2 ≠ [] := by
  simp only [Processor.handle_llm_path] at hout
  repeat' split at hout
  all_goals subst hout
  all_goals simp only [] at hr
  all_goals
    first
    | (injection hr with h2
       subst h2
       exact ⟨rfl, rfl, by simp⟩)
    | injection hr

theorem direct_ok_props (o : Oracle) (ctx : List ContextEntry) (text intent domain : String)
    (out : ProcOutcome) (r : List (String × Value))
    (hout : Processor.handle_direct_path o ctx text intent domain = some out)
    (hr : out.1 = Except.ok r) :
    r.map Prod.fst = ["path", "entity_id", "service", "result"] ∧
      lookupV r "path" = some (Value.str "direct") ∧ out.2.2 ≠ [] := by
  simp only [Processor.handle_direct_path] at hout
  repeat' split at hout
  all_goals
    first
    | (injection hout with h2
       subst h2)
    | injection hout
  all_goals simp only [] at hr
  all_goals
    first
    | (injection hr with h2
       subst h2
       exact ⟨rfl, rfl, by simp⟩)
    | injection hr

/-- A model reply without a truthy tool_name makes the model path raise the
fatal RuntimeError (it is not converted into a soft response). -/
theorem llm_missing_tool_name (o : Oracle) (disc : DiscoveryState) (ctx : List ContextEntry)
    (text : String) (resp : List (String × Value))
    (ho : ∀ p s, o.ask_ollama p s = Except.ok resp)
    (htn : pyTruthy ((lookupV resp "tool_name").getD Value.none) = false) :
    (Processor.handle_llm_path o disc ctx text).1 =
      Except.error (ProcError.runtime "LLM response missing tool_name") := by
  have hempty : pyTruthy (Value.str "") = false := rfl
  simp [Processor.handle_llm_path, ho, htn, hempty]

/-! ## Classifier resolution order -/

/-- The resolution order exactly as the claim words it, first match wins:
(1) lower-cased device_class in the alias table; (2) the lower-cased
identifier prefix in the alias table; (3) the prefix unchanged when it is a
canonical domain name; (4) the first alias key occurring as a substring of
the lower-cased identifier, in table order; (5) the raw prefix exactly as
written, or "unknown" when the identifier is empty. -/
def claimClassify (entity_id : String) (attributes : List (String × Value)) : String :=
  let dc := pyLower (pyStr ((lookupV attributes "device_class").getD (Value.str "")))
  let preRaw := splitDot entity_id
  let pre := pyLower preRaw
  let step1 := if dc ≠ "" then lookupS classifierAliases dc else Option.none
  let step2 := lookupS classifierAliases pre
  let step3 := if DEVICE_DOMAINS.contains pre then some pre else Option.none
  let step4 := classifierAliases.findSome? (fun kv =>
    if isSubstrList kv.1.data (pyLower entity_id).data then some kv.2 else Option.none)
  (((step1 <|> step2) <|> step3) <|> step4).getD
    (if entity_id = "" then "unknown" else preRaw)

/-- The resolution order the code actually implements: each candidate — the
stringified, trimmed, lower-cased device_class first, then the lower-cased
identifier prefix — is first looked up in the alias table (the lookup
lower-cases its key) and then accepted if canonical, before the next
candidate is tried; then the alias keys are scanned as substrings of the
lower-cased identifier in table order; otherwise the last candidate (the
lower-cased prefix when the identifier is non-empty, else the device_class)
is returned, or "unknown" when there is none. -/
def amendedClassify (entity_id : String) (attributes : List (String × Value)) : String :=
  let dc := pyLower (pyStrip (pyStr ((lookupV attributes "device_class").getD (Value.str ""))))
  let pre := pyLower (splitDot entity_id)
  let step1 := if dc ≠ "" then lookupS classifierAliases (pyLower dc) else Option.none
  let step2 := if dc ≠ "" ∧ to_domain_enum (pyLower dc) ≠ "unknown" then
      some (to_domain_enum (pyLower dc)) else Option.none
  let step3 := if entity_id ≠ "" then lookupS classifierAliases (pyLower pre) else Option.none
  let step4 := if entity_id ≠ "" ∧ to_domain_enum (pyLower pre) ≠ "unknown" then
      some (to_domain_enum (pyLower pre)) else Option.none
  let step5 := classifierAliases.findSome? (fun kv =>
    if isSubstrList kv.1.data (pyLower entity_id).data then some kv.2 else Option.none)
  ((((step1 <|> step2) <|> step3) <|> step4) <|> step5).getD
    (if entity_id ≠ "" then (if pre ≠ "" then pre else "unknown")
     else if dc ≠ "" then dc else "unknown")

theorem lookupS_nonempty_values (l : List (String × String)) (c d : String)
    (hall : l.all (fun kv => !(kv.2 == "")) = true)
    (h : lookupS l c = some d) : d ≠ "" := by
  induction l with
  | nil => cases h
  | cons kv t ih =>
    simp only [List.all_cons, Bool.and_eq_true] at hall
    simp only [lookupS] at h
    by_cases hc : kv.1 = c
    · rw [if_pos hc] at h
      injection h with h2
      subst h2
      intro he
      rw [he] at hall
      exact absurd hall.1 (by decide)
    · rw [if_neg hc] at h
      exact ih hall.2 h

theorem lookupS_aliases_ne_empty (c d : String)
    (h : lookupS classifierAliases c = some d) : d ≠ "" :=
  lookupS_nonempty_values classifierAliases c d rfl h

theorem to_domain_enum_ne_empty (c : String) (h : to_domain_enum c ≠ "unknown") :
    to_domain_enum c ≠ "" := by
  unfold to_domain_enum at h ⊢
  by_cases hc : DEVICE_DOMAINS.contains c
  · rw [if_pos hc]
    intro he
    subst he
    exact absurd hc (by decide)
  · rw [if_neg hc] at h
    exact absurd rfl h

/-- One candidate of the classify loop: the truthiness-filtered
normalization equals the alias-then-canonical step pair. -/
theorem normalize_filter_eq (c : String) :
    (match normalize_domain classifierAliases c with
     | some d => if d ≠ "" then some d else Option.none
     | Option.none => Option.none) =
      ((lookupS classifierAliases (pyLower c)) <|>
        (if to_domain_enum (pyLower c) ≠ "unknown" then
          some (to_domain_enum (pyLower c)) else Option.none)) := by
  unfold normalize_domain
  dsimp only
  cases hk : lookupS classifierAliases (pyLower c) with
  | some d =>
    have hd : d ≠ "" := lookupS_aliases_ne_empty (pyLower c) d hk
    simp [Option.orElse, hd]
  | none =>
    by_cases ht : to_domain_enum (pyLower c) = "unknown"
    · simp [Option.orElse, ht]
    · have hne : to_domain_enum (pyLower c) ≠ "" := to_domain_enum_ne_empty _ ht
      simp [Option.orElse, ht, hne]

theorem classify_entity_eq_amended (entity_id : String) (attributes : List (String × Value)) :
    classify_entity entity_id attributes = amendedClassify entity_id attributes := by
  unfold classify_entity DeviceClassifier.classify amendedClassify candidate_domains
  dsimp only
  generalize hdcg : pyLower (pyStrip (pyStr ((lookupV attributes "device_class").getD (Value.str "")))) = dc
  by_cases hdc : dc = "" <;> by_cases hid : entity_id = ""
  · subst hdc; subst hid
    rfl
  · subst hdc
    simp only [ne_eq, not_true_eq_false, if_false, hid, not_false_eq_true, if_true,
      List.nil_append, List.findSome?_cons, List.findSome?_nil]
    rw [normalize_filter_eq]
    cases h3 : lookupS classifierAliases (pyLower (pyLower (splitDot entity_id))) <;>
      by_cases h4 : to_domain_enum (pyLower (pyLower (splitDot entity_id))) = "unknown" <;>
        cases h5 : classifierAliases.findSome? (fun kv =>
          if isSubstrList kv.1.data (pyLower entity_id).data then some kv.2 else Option.none) <;>
      simp [h3, h4, h5, Option.orElse, List.getLast?]
  · subst hid
    simp only [ne_eq, not_true_eq_false, if_false, hdc, not_false_eq_true, if_true,
      List.append_nil, List.findSome?_cons, List.findSome?_nil]
    rw [normalize_filter_eq]
    have hplow : pyLower "" = "" := rfl
    have hscan : classifierAliases.findSome? (fun kv =>
        if isSubstrList kv.1.data ("" : String).data then some kv.2 else Option.none) =
        Option.none := rfl
    cases h1 : lookupS classifierAliases (pyLower dc) <;>
      by_cases h2 : to_domain_enum (pyLower dc) = "unknown" <;>
      simp [h1, h2, hplow, hscan, Option.orElse, List.getLast?, hdc]
  · simp only [ne_eq, hdc, not_false_eq_true, if_true, hid,
      List.cons_append, List.nil_append, List.findSome?_cons, List.findSome?_nil]
    rw [normalize_filter_eq, normalize_filter_eq]
    cases h1 : lookupS classifierAliases (pyLower dc) <;>
      by_cases h2 : to_domain_enum (pyLower dc) = "unknown" <;>
      cases h3 : lookupS classifierAliases (pyLower (pyLower (splitDot entity_id))) <;>
        by_cases h4 : to_domain_enum (pyLower (pyLower (splitDot entity_id))) = "unknown" <;>
          cases h5 : classifierAliases.findSome? (fun kv =>
            if isSubstrList kv.1.data (pyLower entity_id).data then some kv.2 else Option.none) <;>
      simp [h1, h2, h3, h4, h5, Option.orElse, List.getLast?]

theorem sanitize_args_length (args : Option (List (String × Value))) (allowed : List String)
    (m : List (String × Value)) (h : sanitize_tool_arguments args allowed = Except.ok m) :
    m.length ≤ (args.getD []).length := by
  unfold sanitize_tool_arguments at h
  by_cases he : allowed.isEmpty
  · rw [if_pos he] at h; cases h
  · rw [if_neg he] at h
    cases args with
    | none => simp only [Except.ok.injEq] at h; subst h; simp
    | some kvs => simpa using sanitizeTop_length allowed kvs m h

theorem prepare_str_ok_required (name : String) (td : ToolDefinition) (args : Value)
    (dm sv : String) (p : List (String × Value))
    (hdef : get_tool_definition name = some td)
    (hp : prepare_service_payload (Value.str name) args = Except.ok (dm, sv, p)) :
    ∀ r ∈ td.required_args, ((p.map Prod.fst).contains r) = true := by
  simp only [prepare_service_payload] at hp
  split at hp
  · cases hp
  · rename_i td2 hdef2
    rw [hdef] at hdef2
    injection hdef2 with h2
    subst h2
    split at hp
    · split at hp
      · cases hp
      · rename_i sa hs
        split at hp
        · cases hp
        · rename_i hfind
          simp only [Except.ok.injEq, Prod.mk.injEq] at hp
          obtain ⟨h1a, h1b, h1c⟩ := hp
          subst h1c
          intro r hr
          simpa using List.find?_eq_none.mp hfind r hr
    · cases hp

theorem prepare_dict_not_attr (nm : String) (kvs : List (String × Value)) :
    prepare_service_payload (Value.str nm) (Value.dict kvs) ≠ Except.error PrepErr.attrError := by
  simp only [prepare_service_payload]
  have hcond : (if pyTruthy (Value.dict kvs) = true then Value.dict kvs else Value.dict []) =
      Value.dict (if pyTruthy (Value.dict kvs) = true then kvs else []) := by
    by_cases h : pyTruthy (Value.dict kvs) = true <;> simp [h]
  split
  · simp
  · rw [hcond]
    dsimp only
    split
    · simp
    · split <;> simp

theorem direct_error_kinds (o : Oracle) (ctx : List ContextEntry) (text intent domain : String)
    (out : ProcOutcome) (e : ProcError)
    (hout : Processor.handle_direct_path o ctx text intent domain = some out)
    (he : out.1 = Except.error e) :
    e = ProcError.runtime "Invalid direct command arguments" ∨ ∃ ne, e = ProcError.haError ne := by
  simp only [Processor.handle_direct_path] at hout
  repeat' split at hout
  all_goals
    first
    | (injection hout with h2
       subst h2)
    | injection hout
  all_goals simp only [] at he
  all_goals
    first
    | (exact absurd (by assumption : prepare_service_payload _ _ = Except.error PrepErr.attrError)
        (prepare_dict_not_attr _ _))
    | (injection he with h2
       subst h2
       exact Or.inl rfl)
    | (injection he with h2
       subst h2
       exact Or.inr ⟨_, rfl⟩)
    | injection he

/-! ## Concrete fixtures for witnesses and counterexamples -/

def entityLightBad : EntityRecord :=
  { entity_id := "light.bad", name := "Deckenlampe Bad", domain := "light",
    state := "off", attributes := [] }

/-- A request where fuzzy search finds the bathroom light and both network
collaborators succeed. -/
def oracleDirect : Oracle :=
  { search := fun _ _ _ => [entityLightBad],
    call_service := fun _ _ _ => .ok (.str "ok"),
    ask_ollama := fun _ _ => .ok [] }

/-- A request resolved by the model path: no fast-path entity, the model
proposes ha_light_turn_on for light.bad, and the dispatch succeeds. -/
def oracleLlmOk : Oracle :=
  { search := fun _ _ _ => [],
    call_service := fun _ _ _ => .ok (.str "ok"),
    ask_ollama := fun _ _ => .ok
      [("tool_name", .str "ha_light_turn_on"),
       ("arguments", .dict [("entity_id", .str "light.bad")])] }

/-- A request where the model reply carries no tool_name at all. -/
def oracleLlmNoTool : Oracle :=
  { search := fun _ _ _ => [],
    call_service := fun _ _ _ => .ok (.str "ok"),
    ask_ollama := fun _ _ => .ok [] }

/-- Twenty-one allowed argument names. -/
def allowed21 : List String :=
  ["k01", "k02", "k03", "k04", "k05", "k06", "k07", "k08", "k09", "k10",
   "k11", "k12", "k13", "k14", "k15", "k16", "k17", "k18", "k19", "k20", "k21"]

/-- An argument map binding each of the twenty-one allowed names. -/
def args21 : List (String × Value) := allowed21.map (fun k => (k, Value.int 1))

/-! ## Claim theorems -/

/-- C1: every dispatch the processor hands to the control-plane client, on
the direct path and on the model-fallback path alike, carries a payload that
came out of prepare_service_payload (the whitelist gate), and its
(domain, service) pair is the one of a registered capability looked up by
name, with every payload key in that capability's allowed-argument set. -/
theorem C1_dispatch_whitelisted (o : Oracle) (disc : DiscoveryState)
    (ctx : List ContextEntry) (text : String) (d : Dispatch)
    (hd : d ∈ (Processor.process o disc ctx text).2.2) :
    dispatchPrepared d ∧ dispatchWhitelisted d :=
  ⟨process_mem_dispatch o disc ctx text d hd,
   prepared_whitelisted d (process_mem_dispatch o disc ctx text d hd)⟩

theorem C1_witness :
    dispatchPrepared
      { domain := "light", service := "turn_on",
        payload := [("entity_id", Value.str "light.bad")] } ∧
    dispatchWhitelisted
      { domain := "light", service := "turn_on",
        payload := [("entity_id", Value.str "light.bad")] } :=
  C1_dispatch_whitelisted oracleDirect {} [] "Schalte das Licht im Bad an" _
    (List.mem_singleton.mpr rfl)

/-- C2 (counterexample): a model reply without an action name is not
converted into a soft acknowledgment at the processor boundary — process
raises the fatal RuntimeError "LLM response missing tool_name". -/
theorem C2_counterexample :
    (Processor.process oracleLlmNoTool {} [] "Hallo").1 =
      Except.error (ProcError.runtime "LLM response missing tool_name") := rfl

/-- C2 (amended): sanitization and validation failures are fatal, not soft.
A model reply without a truthy tool_name raises the RuntimeError; every
direct-path error outcome is either the RuntimeError re-raised from a
sanitization/validation failure or a propagated control-plane failure; and
every successfully returned result was produced by an actual dispatch, so no
soft could-not-execute response exists. -/
theorem C2_failures_are_fatal (o : Oracle) (disc : DiscoveryState)
    (ctx : List ContextEntry) (text : String) :
    (∀ resp, (∀ p s, o.ask_ollama p s = Except.ok resp) →
      pyTruthy ((lookupV resp "tool_name").getD Value.none) = false →
      (Processor.handle_llm_path o disc ctx text).1 =
        Except.error (ProcError.runtime "LLM response missing tool_name")) ∧
    (∀ route out e, semantic_route text = some route →
      Processor.handle_direct_path o ctx text route.intent route.domain = some out →
      out.1 = Except.error e →
      e = ProcError.runtime "Invalid direct command arguments" ∨
        ∃ ne, e = ProcError.haError ne) ∧
    (∀ r, (Processor.process o disc ctx text).1 = Except.ok r →
      (Processor.process o disc ctx text).2.2 ≠ []) := by
  refine ⟨?_, ?_, ?_⟩
  · intro resp ho htn
    exact llm_missing_tool_name o disc ctx text resp ho htn
  · intro route out e _ hout he
    exact direct_error_kinds o ctx text route.intent route.domain out e hout he
  · intro r hr
    unfold Processor.process at hr ⊢
    cases hroute : semantic_route text with
    | none =>
      rw [hroute] at hr
      dsimp only at hr ⊢
      exact (llm_ok_props o disc ctx text _ r rfl hr).2.2
    | some route =>
      rw [hroute] at hr
      dsimp only at hr ⊢
      cases hdir : Processor.handle_direct_path o ctx text route.intent route.domain with
      | none =>
        rw [hdir] at hr
        dsimp only at hr ⊢
        exact (llm_ok_props o disc ctx text _ r rfl hr).2.2
      | some out =>
        rw [hdir] at hr
        dsimp only at hr ⊢
        exact (direct_ok_props o ctx text route.intent route.domain out r hdir hr).2.2

/-- C3: sanitize only keeps keys from the allowed set, no returned key (top
level or nested, at any depth) starts with "__", and the concrete scenario
sanitize({entity_id: light.bad, __proto__: x}, {entity_id}) returns exactly
{entity_id: light.bad}. -/
theorem C3_sanitize_whitelist (args : Option (List (String × Value)))
    (allowed : List String) (m : List (String × Value))
    (h : sanitize_tool_arguments args allowed = Except.ok m) :
    (∀ kv ∈ m, kv.1 ∈ allowed ∧ strStarts kv.1 "__" = false ∧ noDunderV kv.2 = true) ∧
    sanitize_tool_arguments
        (some [("entity_id", Value.str "light.bad"), ("__proto__", Value.str "x")])
        ["entity_id"] = Except.ok [("entity_id", Value.str "light.bad")] := by
  refine ⟨?_, rfl⟩
  intro kv hkv
  obtain ⟨ha, hb, hc, -⟩ := sanitize_args_props args allowed m h kv hkv
  exact ⟨ha, hb, hc⟩

theorem C3_witness :
    ((∀ kv ∈ [("entity_id", Value.str "light.bad")],
        kv.1 ∈ ["entity_id"] ∧ strStarts kv.1 "__" = false ∧ noDunderV kv.2 = true) ∧
      sanitize_tool_arguments
          (some [("entity_id", Value.str "light.bad"), ("__proto__", Value.str "x")])
          ["entity_id"] = Except.ok [("entity_id", Value.str "light.bad")]) :=
  C3_sanitize_whitelist
    (some [("entity_id", Value.str "light.bad"), ("__proto__", Value.str "x")])
    ["entity_id"] [("entity_id", Value.str "light.bad")] rfl

/-- C4 (counterexample): a top-level map key beginning with "__" does not
raise — it is silently dropped by the top-level filter, and sanitize returns
the empty map. -/
theorem C4_counterexample :
    sanitize_tool_arguments (some [("__proto__", Value.str "x")]) ["entity_id"] =
      Except.ok [] := rfl

/-- C4 (amended): sanitize fails exactly when the allowed set is empty, or
some kept top-level entry — key allowed and not "__"-prefixed; dropped keys
are never examined — has a value that, within the first 20 entries of every
nested list and map (later entries are never examined), contains a value of
unsupported type or a nested map key beginning with "__". -/
theorem C4_failure_characterization (args : Option (List (String × Value)))
    (allowed : List String) :
    isOkE (sanitize_tool_arguments args allowed) =
      (!allowed.isEmpty &&
        (match args with
         | Option.none => true
         | some kvs => sanOkTop allowed kvs)) :=
  sanitize_args_isOk args allowed

/-- C5 (counterexample): the 20-entry cap is enforced only inside values;
the top-level result map is not truncated — with 21 allowed names and 21
matching entries, sanitize returns all 21. -/
theorem C5_counterexample :
    sanitize_tool_arguments (some args21) allowed21 = Except.ok args21 ∧
      args21.length = 21 := ⟨rfl, rfl⟩

/-- C5 (amended): inside every returned value, every list and every map at
every nesting depth has at most 20 entries; the top-level map is instead
bounded by the input map (one entry per surviving input entry, every key
from the allowed set) — and every registered capability allows at most four
argument names, so pipeline dispatches never exceed the cap at the top level
either. -/
theorem C5_nested_bounds (args : Option (List (String × Value)))
    (allowed : List String) (m : List (String × Value))
    (h : sanitize_tool_arguments args allowed = Except.ok m) :
    (∀ kv ∈ m, boundedV kv.2 = true) ∧ m.length ≤ (args.getD []).length ∧
      (∀ kv ∈ m, kv.1 ∈ allowed) ∧
      ∀ td ∈ TOOL_DEFINITIONS, td.allowed_args.length ≤ 4 := by
  refine ⟨?_, sanitize_args_length args allowed m h, ?_, by decide⟩
  · intro kv hkv
    exact (sanitize_args_props args allowed m h kv hkv).2.2.2
  · intro kv hkv
    exact (sanitize_args_props args allowed m h kv hkv).1

theorem C5_witness :
    ((∀ kv ∈ [("entity_id", Value.str "light.bad")], boundedV kv.2 = true) ∧
      ([("entity_id", Value.str "light.bad")] : List (String × Value)).length ≤
        ((some [("entity_id", Value.str "light.bad")] :
            Option (List (String × Value))).getD []).length ∧
      (∀ kv ∈ [("entity_id", Value.str "light.bad")], kv.1 ∈ ["entity_id"]) ∧
      ∀ td ∈ TOOL_DEFINITIONS, td.allowed_args.length ≤ 4) :=
  C5_nested_bounds (some [("entity_id", Value.str "light.bad")]) ["entity_id"]
    [("entity_id", Value.str "light.bad")] rfl

/-- C6 (counterexample): a request resolved by the model-assisted path is
tagged "llm", not "fallback". -/
theorem C6_counterexample :
    (Processor.process oracleLlmOk {} [] "Hallo").1 =
      Except.ok [("path", Value.str "llm"),
        ("service", Value.str "light.turn_on"),
        ("entity_id", Value.str "light.bad"),
        ("payload", Value.dict [("entity_id", Value.str "light.bad")]),
        ("result", Value.str "ok")] ∧
    Value.str "llm" ≠ Value.str "fallback" := ⟨rfl, by simp⟩

/-- C6 (amended): every successful process result is tagged "direct" with
keys (path, entity_id, service, result), or tagged "llm" with the same data
plus an extra payload field (keys path, service, entity_id, payload,
result). -/
theorem C6_path_tags (o : Oracle) (disc : DiscoveryState) (ctx : List ContextEntry)
    (text : String) (r : List (String × Value))
    (hr : (Processor.process o disc ctx text).1 = Except.ok r) :
    (lookupV r "path" = some (Value.str "direct") ∧
      r.map Prod.fst = ["path", "entity_id", "service", "result"]) ∨
    (lookupV r "path" = some (Value.str "llm") ∧
      r.map Prod.fst = ["path", "service", "entity_id", "payload", "result"]) := by
  unfold Processor.process at hr
  cases hroute : semantic_route text with
  | none =>
    rw [hroute] at hr
    dsimp only at hr
    obtain ⟨hkeys, hpath, -⟩ := llm_ok_props o disc ctx text _ r rfl hr
    exact Or.inr ⟨hpath, hkeys⟩
  | some route =>
    rw [hroute] at hr
    dsimp only at hr
    cases hdir : Processor.handle_direct_path o ctx text route.intent route.domain with
    | none =>
      rw [hdir] at hr
      dsimp only at hr
      obtain ⟨hkeys, hpath, -⟩ := llm_ok_props o disc ctx text _ r rfl hr
      exact Or.inr ⟨hpath, hkeys⟩
    | some out =>
      rw [hdir] at hr
      dsimp only at hr
      obtain ⟨hkeys, hpath, -⟩ := direct_ok_props o ctx text route.intent route.domain out r hdir hr
      exact Or.inl ⟨hpath, hkeys⟩

theorem C6_witness :
    (lookupV [("path", Value.str "llm"),
        ("service", Value.str "light.turn_on"),
        ("entity_id", Value.str "light.bad"),
        ("payload", Value.dict [("entity_id", Value.str "light.bad")]),
        ("result", Value.str "ok")] "path" = some (Value.str "direct") ∧
      ([("path", Value.str "llm"),
        ("service", Value.str "light.turn_on"),
        ("entity_id", Value.str "light.bad"),
        ("payload", Value.dict [("entity_id", Value.str "light.bad")]),
        ("result", Value.str "ok")] : List (String × Value)).map Prod.fst =
          ["path", "entity_id", "service", "result"]) ∨
    (lookupV [("path", Value.str "llm"),
        ("service", Value.str "light.turn_on"),
        ("entity_id", Value.str "light.bad"),
        ("payload", Value.dict [("entity_id", Value.str "light.bad")]),
        ("result", Value.str "ok")] "path" = some (Value.str "llm") ∧
      ([("path", Value.str "llm"),
        ("service", Value.str "light.turn_on"),
        ("entity_id", Value.str "light.bad"),
        ("payload", Value.dict [("entity_id", Value.str "light.bad")]),
        ("result", Value.str "ok")] : List (String × Value)).map Prod.fst =
          ["path", "service", "entity_id", "payload", "result"]) :=
  C6_path_tags oracleLlmOk {} [] "Hallo" _ rfl

/-- C7: on the command "Mach die Rollos im Wohnzimmer runter" the fast
router does yield (cover_control, cover), but no negation keyword is
detected ("runter" is missing from the processor's negation set), so the
direct path selects ha_cover_open instead of the ha_cover_close the spec —
and the repository's own adapter tests for the same sentence — expect. -/
theorem C7_router_negation_evaluation :
    semantic_route "Mach die Rollos im Wohnzimmer runter" =
      some { intent := "cover_control", domain := "cover", requires_llm := false,
             keywords := ["rollo", "rolladen", "shade", "blinds", "jalousie"] } ∧
    containsKeywordProc "Mach die Rollos im Wohnzimmer runter" NEGATION_KEYWORDS = false ∧
    (tool_for_intent "cover_control" false).map ToolDefinition.name = some "ha_cover_open" ∧
    (tool_for_intent "cover_control" true).map ToolDefinition.name = some "ha_cover_close" :=
  ⟨rfl, rfl, rfl, rfl⟩

/-- C8 (counterexample): the claim's resolution order — device_class alias,
then prefix alias, then prefix canonical — predicts "switch" for
plug.kitchen with device_class lock, but the code accepts the device_class
as a canonical domain before ever looking at the prefix and returns
"lock". -/
theorem C8_counterexample :
    DeviceClassifier.classify classifierAliases "plug.kitchen"
        [("device_class", Value.str "lock")] = "lock" ∧
    claimClassify "plug.kitchen" [("device_class", Value.str "lock")] = "switch" ∧
    ("lock" : String) ≠ "switch" := ⟨rfl, rfl, by decide⟩

/-- C8 (amended): classify resolves each candidate in turn — the
stringified, trimmed, lower-cased device_class first, then the lower-cased
identifier prefix — by alias lookup and then the canonical-domain check,
before the next candidate; then scans alias keys as substrings of the
lower-cased identifier in table order; otherwise returns the last candidate
(the lower-cased prefix when the identifier is non-empty, else the
device_class), or "unknown" when there is none. -/
theorem C8_resolution_order (entity_id : String) (attributes : List (String × Value)) :
    classify_entity entity_id attributes = amendedClassify entity_id attributes :=
  classify_entity_eq_amended entity_id attributes

/-- C9: when the underlying fetch fails, refresh surfaces the error and the
previous snapshot — the entity list and the refresh timestamp — survives
completely unchanged. -/
theorem C9_refresh_error_preserves_snapshot (st : DiscoveryState) (e : NetErr) (now : Nat) :
    DiscoveryService.refresh st (Except.error e) now = (st, some e) := rfl

/-- C10: with a non-empty allowed set, sanitize of an absent argument map
returns the empty map without raising; missing required arguments are only
caught by prepare_service_payload, whose successful results always contain
every required-argument name of the resolved capability. -/
theorem C10_absent_args_and_required_gate (allowed : List String) (h : allowed ≠ []) :
    sanitize_tool_arguments Option.none allowed = Except.ok [] ∧
    ∀ name td (args : Value) (dm sv : String) (p : List (String × Value)),
      get_tool_definition name = some td →
      prepare_service_payload (Value.str name) args = Except.ok (dm, sv, p) →
      ∀ r ∈ td.required_args, ((p.map Prod.fst).contains r) = true := by
  constructor
  · unfold sanitize_tool_arguments
    rw [if_neg (by simpa [List.isEmpty_iff] using h)]
  · intro name td args dm sv p hdef hp
    exact prepare_str_ok_required name td args dm sv p hdef hp

theorem C10_witness :
    (sanitize_tool_arguments Option.none ["entity_id"] = Except.ok [] ∧
      ∀ name td (args : Value) (dm sv : String) (p : List (String × Value)),
        get_tool_definition name = some td →
        prepare_service_payload (Value.str name) args = Except.ok (dm, sv, p) →
        ∀ r ∈ td.required_args, ((p.map Prod.fst).contains r) = true) :=
  C10_absent_args_and_required_gate ["entity_id"] (by decide)

end Jarvis
